import Mathlib

/-!
Shallow embedding of `src/main.rs` (rust-error-handling): a demo of the
anyhow/thiserror error-propagation design.  Rust constructs are modelled as
follows: the `TcrApiError` enum becomes an inductive type; `anyhow::Error`
(the universal, type-erased error container) becomes the inductive `AnyError`
whose constructors are exactly the public construction paths — conversion
`from` a `TcrApiError`, conversion `from` a `std::num::ParseIntError`, the
`anyhow!` ad-hoc message macro, and `.context(...)` layering; `anyhow::Result`
becomes `Except AnyError`; the `HashMap` built by `get_data` (one insertion)
becomes an association list; `str::parse::<u8>` is embedded as `parseU8` over
`Nat` with the explicit 255 bound.  `render` is the alternate display of the
container (the chain of messages joined by ": ", the contract stated in the
spec), and `downcastTcr` is `downcast_ref::<TcrApiError>`, which walks the
context chain and succeeds iff some node holds a `TcrApiError`.
-/

/-- Rust `TcrApiError` (main.rs lines 13-17): a thiserror enum with the single
variant `FieldMissing(String)`. -/
inductive TcrApiError where
  | FieldMissing (field : String)
deriving DecidableEq, Repr

/-- Display of `TcrApiError`, from the thiserror attribute
`#[error("Missing field: {0}")]`. -/
def tcrMessage : TcrApiError → String
  | .FieldMissing f => "Missing field: " ++ f

/-- Error kinds of Rust `std::num::ParseIntError` reachable by `u8::from_str`. -/
inductive IntErrorKind where
  | empty
  | invalidDigit
  | posOverflow
deriving DecidableEq, Repr

/-- Rust `std::num::ParseIntError`. -/
structure ParseIntError where
  kind : IntErrorKind
deriving DecidableEq, Repr

/-- Display of `std::num::ParseIntError`. -/
def parseMessage (e : ParseIntError) : String :=
  match e.kind with
  | .empty => "cannot parse integer from empty string"
  | .invalidDigit => "invalid digit found in string"
  | .posOverflow => "number too large to fit in target type"

/-- Digit-accumulation loop of `u8::from_str_radix` (radix 10): each character
must be a decimal digit, and the accumulated value may never exceed 255. -/
def parseU8Digits : List Char → Nat → Except ParseIntError Nat
  | [], acc => Except.ok acc
  | c :: cs, acc =>
    if c.isDigit then
      let acc2 := acc * 10 + (c.toNat - Char.toNat '0')
      if acc2 > 255 then Except.error ⟨IntErrorKind.posOverflow⟩
      else parseU8Digits cs acc2
    else Except.error ⟨IntErrorKind.invalidDigit⟩

/-- Rust `"...".parse::<u8>()`: empty input is `Empty`; a leading `+` is
stripped (a bare `+` is `InvalidDigit`); everything else runs the digit loop. -/
def parseU8 (s : String) : Except ParseIntError Nat :=
  match s.data with
  | [] => Except.error ⟨IntErrorKind.empty⟩
  | c :: cs =>
    let digits := if c = '+' then cs else c :: cs
    match digits with
    | [] => Except.error ⟨IntErrorKind.invalidDigit⟩
    | d :: ds => parseU8Digits (d :: ds) 0

/-- The universal error container `anyhow::Error`, closed over the construction
paths the program uses: `from` a `TcrApiError`, `from` a `ParseIntError`, the
`anyhow!` message macro, and `.context(msg)` wrapping a previous container. -/
inductive AnyError where
  | fromTcr (e : TcrApiError)
  | fromParse (e : ParseIntError)
  | adhoc (msg : String)
  | context (msg : String) (cause : AnyError)
deriving DecidableEq, Repr

/-- Message owned by the outermost node of the container. -/
def msgOf : AnyError → String
  | .fromTcr t => tcrMessage t
  | .fromParse p => parseMessage p
  | .adhoc m => m
  | .context c _ => c

/-- Cause of the outermost node: a `.context` layer points at the container it
wrapped; the three root constructors have no cause. -/
def cause : AnyError → Option AnyError
  | .context _ e => some e
  | _ => none

/-- Rendering of the container: the chain of messages, outermost first, joined
by ": " (anyhow alternate display, the textual contract of the spec). -/
def render : AnyError → String
  | .fromTcr t => tcrMessage t
  | .fromParse p => parseMessage p
  | .adhoc m => m
  | .context c e => c ++ ": " ++ render e

/-- `downcast_ref::<TcrApiError>()`: walks the chain outermost to innermost and
returns the first `TcrApiError` node; context strings, ad-hoc messages and
foreign parse failures never match. -/
def downcastTcr : AnyError → Option TcrApiError
  | .fromTcr t => some t
  | .fromParse _ => none
  | .adhoc _ => none
  | .context _ e => downcastTcr e

/-- `.context(c)` on an error: builds a new container whose message is `c` and
whose cause is the previous container. -/
def withContext (c : String) (e : AnyError) : AnyError := AnyError.context c e

/-- Successive `.context` applications, first list element applied first
(innermost). -/
def applyContexts (ctxs : List String) (e : AnyError) : AnyError :=
  ctxs.foldl (fun acc c => withContext c acc) e

/-- Number of context layers on top of the root. -/
def depth : AnyError → Nat
  | .context _ e => depth e + 1
  | _ => 0

/-- The cause chain as a list, outermost container first, root last. -/
def chain : AnyError → List AnyError
  | .fromTcr t => [.fromTcr t]
  | .fromParse p => [.fromParse p]
  | .adhoc m => [.adhoc m]
  | .context c e => .context c e :: chain e

/-- Context messages of the chain, outermost first. -/
def ctxMsgs : AnyError → List String
  | .context c e => c :: ctxMsgs e
  | _ => []

/-- Message of the terminal root cause. -/
def rootMsg : AnyError → String
  | .fromTcr t => tcrMessage t
  | .fromParse p => parseMessage p
  | .adhoc m => m
  | .context _ e => rootMsg e

/-- Modelled from the spec: the rendering contract of section 3, an ordered
concatenation of messages joined by ": " (compared against `render` below). -/
def joinColon : List String → String
  | [] => ""
  | [s] => s
  | s :: rest => s ++ ": " ++ joinColon rest

/-- Occurrence of `pat` in `s` at character position `p`. -/
def occursAt (pat s : String) (p : Nat) : Prop :=
  ∃ u v : List Char, s.data = u ++ (pat.data ++ v) ∧ u.length = p

/-- Rust `get_data` (main.rs lines 20-24): a `HashMap` holding the single
entry `"1" ↦ "a"`, modelled as an association list. -/
def get_data : List (String × String) := [("1", "a")]

/-- Rust `one_off_errors` (main.rs lines 30-40): look up `"doesnt-exist"`,
`ok_or(anyhow!(...))?`, then `"cant-parse".parse::<u8>()?`, then `Ok(val)`. -/
def one_off_errors : Except AnyError String :=
  match get_data.lookup "doesnt-exist" with
  | none =>
      Except.error
        (AnyError.adhoc "some error that isnt common or doesnt need to be categorized")
  | some val =>
    match parseU8 "cant-parse" with
    | Except.error e => Except.error (AnyError.fromParse e)
    | Except.ok _ => Except.ok val

/-- Rust `potentially_common_error` (main.rs lines 42-55): look up
`"doesnt-exist"`, `ok_or(TcrApiError::FieldMissing("field name"))?`, then
`"cant-parse".parse::<u8>()?`, then `Ok(val)`. -/
def potentially_common_error : Except AnyError String :=
  match get_data.lookup "doesnt-exist" with
  | none => Except.error (AnyError.fromTcr (TcrApiError.FieldMissing "field name"))
  | some val =>
    match parseU8 "cant-parse" with
    | Except.error e => Except.error (AnyError.fromParse e)
    | Except.ok _ => Except.ok val

/-- Rust `errors_with_context` (main.rs lines 82-91): look up `"doesnt-exist"`,
`ok_or(anyhow!("the actual error")).context("context of what is going on")?`. -/
def errors_with_context : Except AnyError String :=
  match get_data.lookup "doesnt-exist" with
  | none =>
      Except.error
        (AnyError.context "context of what is going on" (AnyError.adhoc "the actual error"))
  | some val => Except.ok val

/-- Rust `specific_error_with_context` (main.rs lines 94-103): look up
`"doesnt-exist"`,
`ok_or(TcrApiError::FieldMissing("doesnt-exist")).context("parsing name of TCR API endpoint")?`. -/
def specific_error_with_context : Except AnyError String :=
  match get_data.lookup "doesnt-exist" with
  | none =>
      Except.error
        (AnyError.context "parsing name of TCR API endpoint"
          (AnyError.fromTcr (TcrApiError.FieldMissing "doesnt-exist")))
  | some val => Except.ok val

/-! Helper lemmas -/

lemma downcastTcr_applyContexts (ctxs : List String) (e : AnyError) :
    downcastTcr (applyContexts ctxs e) = downcastTcr e := by
  induction ctxs generalizing e with
  | nil => rfl
  | cons c cs ih =>
      have h : applyContexts (c :: cs) e = applyContexts cs (withContext c e) := rfl
      rw [h, ih]
      rfl

lemma data_append (a b : String) : (a ++ b).data = a.data ++ b.data := rfl

lemma sep_len : ((": ") : String).data.length = 2 := rfl

lemma joinColon_cons (s : String) (l : List String) (h : l ≠ []) :
    joinColon (s :: l) = s ++ ": " ++ joinColon l := by
  cases l with
  | nil => exact absurd rfl h
  | cons a as => rfl

lemma render_eq_joinColon (e : AnyError) :
    render e = joinColon (ctxMsgs e ++ [rootMsg e]) := by
  induction e with
  | fromTcr t => rfl
  | fromParse p => rfl
  | adhoc m => rfl
  | context c e ih =>
      have hne : ctxMsgs e ++ [rootMsg e] ≠ [] := by simp
      calc render (AnyError.context c e) = c ++ ": " ++ render e := rfl
        _ = c ++ ": " ++ joinColon (ctxMsgs e ++ [rootMsg e]) := by rw [ih]
        _ = joinColon (c :: (ctxMsgs e ++ [rootMsg e])) := (joinColon_cons _ _ hne).symm
        _ = joinColon (ctxMsgs (AnyError.context c e) ++ [rootMsg (AnyError.context c e)]) := rfl

lemma rootMsg_suffix (e : AnyError) :
    ∃ t : List Char, (render e).data = t ++ (rootMsg e).data := by
  induction e with
  | fromTcr t => exact ⟨[], rfl⟩
  | fromParse p => exact ⟨[], rfl⟩
  | adhoc m => exact ⟨[], rfl⟩
  | context c e ih =>
      obtain ⟨t, ht⟩ := ih
      refine ⟨c.data ++ ((": ").data ++ t), ?_⟩
      calc (render (AnyError.context c e)).data
          = c.data ++ ((": ").data ++ (render e).data) := by
            simp [render, data_append, List.append_assoc]
        _ = c.data ++ ((": ").data ++ (t ++ (rootMsg e).data)) := by rw [ht]
        _ = (c.data ++ ((": ").data ++ t)) ++ (rootMsg (AnyError.context c e)).data := by
            simp [rootMsg, List.append_assoc]

/-! Claim theorems -/

/-- C2: round-trip identity.  Any `TcrApiError` wrapped into the container via
the accept-any-error conversion and then through any finite sequence of
`with_context` applications (so every N from 0 up to at least 5) downcasts back
to a value structurally equal to the original. -/
theorem roundtrip_identity (t : TcrApiError) (ctxs : List String) :
    downcastTcr (applyContexts ctxs (AnyError.fromTcr t)) = some t := by
  rw [downcastTcr_applyContexts]
  rfl

/-- C4: non-mutation.  `with_context` builds a new container whose cause is the
original container, unchanged, and whose own message is the supplied text; the
result is a different value, and its rendering extends (rather than replaces)
the original rendering, so the original's `render()` output is exactly what it
was before the call. -/
theorem with_context_non_mutation (e : AnyError) (c : String) :
    cause (withContext c e) = some e ∧ msgOf (withContext c e) = c ∧
      withContext c e ≠ e ∧ render (withContext c e) = c ++ ": " ++ render e := by
  refine ⟨rfl, rfl, ?_, rfl⟩
  intro h
  have hd := congrArg depth h
  simp only [withContext, depth] at hd
  omega

/-- C6: ad-hoc opacity.  A container built via the `anyhow!` message path never
downcasts to `TcrApiError`, whatever the message string. -/
theorem adhoc_opacity (x : String) : downcastTcr (AnyError.adhoc x) = none := rfl

/-- C9: structural equality.  Two `TcrApiError::FieldMissing` values are equal
exactly when they carry the same field string — equality is structural and
independent of the origin of either value. -/
theorem structural_equality (s t : String) :
    TcrApiError.FieldMissing s = TcrApiError.FieldMissing t ↔ s = t := by
  constructor
  · intro h
    injection h
  · intro h
    rw [h]

/-- C10: `one_off_errors` always returns the ad-hoc message error produced at
the failed lookup of `"doesnt-exist"` (the lookup in the map `{"1": "a"}` fails
and propagates first, so the u8 parse is never the source of the returned
error and the `Ok` branch is unreachable). -/
theorem one_off_always_adhoc :
    one_off_errors =
      Except.error
        (AnyError.adhoc "some error that isnt common or doesnt need to be categorized") ∧
      get_data.lookup "doesnt-exist" = none :=
  ⟨rfl, rfl⟩

/-- C5: foreign acceptance.  Parsing `"cant-parse"` as a u8 fails with an
invalid-digit error; the container accepting that foreign failure never
downcasts to `TcrApiError` — a foreign failure is not reinterpreted as a
domain error. -/
theorem foreign_acceptance :
    parseU8 "cant-parse" = Except.error ⟨IntErrorKind.invalidDigit⟩ ∧
      ∀ p : ParseIntError, downcastTcr (AnyError.fromParse p) = none :=
  ⟨rfl, fun _ => rfl⟩

/-- C1 counterexample: the concrete scenario in the code
(`specific_error_with_context`) constructs `FieldMissing("doesnt-exist")`, not
`FieldMissing("field name")`: the produced container renders to a string other
than `"parsing name of TCR API endpoint: Missing field: field name"` and does
not downcast to `FieldMissing("field name")`. -/
theorem scenario_counterexample :
    specific_error_with_context =
      Except.error
        (AnyError.context "parsing name of TCR API endpoint"
          (AnyError.fromTcr (TcrApiError.FieldMissing "doesnt-exist"))) ∧
      render
          (AnyError.context "parsing name of TCR API endpoint"
            (AnyError.fromTcr (TcrApiError.FieldMissing "doesnt-exist"))) ≠
        "parsing name of TCR API endpoint: Missing field: field name" ∧
      downcastTcr
          (AnyError.context "parsing name of TCR API endpoint"
            (AnyError.fromTcr (TcrApiError.FieldMissing "doesnt-exist"))) ≠
        some (TcrApiError.FieldMissing "field name") := by
  refine ⟨rfl, ?_, ?_⟩
  · decide
  · decide

/-- C1 amended: `specific_error_with_context` looks up `"doesnt-exist"` in the
map `{"1": "a"}`, finds nothing, constructs `FieldMissing("doesnt-exist")` and
attaches the context `"parsing name of TCR API endpoint"`; the resulting
container renders to exactly
`"parsing name of TCR API endpoint: Missing field: doesnt-exist"` and
downcasts to `FieldMissing("doesnt-exist")`. -/
theorem scenario_amended :
    specific_error_with_context =
      Except.error
        (AnyError.context "parsing name of TCR API endpoint"
          (AnyError.fromTcr (TcrApiError.FieldMissing "doesnt-exist"))) ∧
      render
          (AnyError.context "parsing name of TCR API endpoint"
            (AnyError.fromTcr (TcrApiError.FieldMissing "doesnt-exist"))) =
        "parsing name of TCR API endpoint: Missing field: doesnt-exist" ∧
      downcastTcr
          (AnyError.context "parsing name of TCR API endpoint"
            (AnyError.fromTcr (TcrApiError.FieldMissing "doesnt-exist"))) =
        some (TcrApiError.FieldMissing "doesnt-exist") :=
  ⟨rfl, rfl, rfl⟩

lemma chain_ne_nil (e : AnyError) : chain e ≠ [] := by
  cases e <;> simp [chain]

lemma chain_head (e : AnyError) : (chain e).head? = some e := by
  cases e <;> rfl

lemma depth_of_mem_chain {e x : AnyError} (h : x ∈ chain e) : depth x ≤ depth e := by
  induction e with
  | fromTcr t =>
      simp [chain] at h
      subst h
      exact Nat.le_refl _
  | fromParse p =>
      simp [chain] at h
      subst h
      exact Nat.le_refl _
  | adhoc m =>
      simp [chain] at h
      subst h
      exact Nat.le_refl _
  | context c e ih =>
      simp only [chain, List.mem_cons] at h
      rcases h with rfl | h
      · exact Nat.le_refl _
      · exact Nat.le_trans (ih h) (Nat.le_succ _)

lemma chain_pairwise (e : AnyError) :
    (chain e).Pairwise (fun a b => depth b < depth a) := by
  induction e with
  | fromTcr t => simp [chain]
  | fromParse p => simp [chain]
  | adhoc m => simp [chain]
  | context c e ih =>
      simp only [chain]
      refine List.pairwise_cons.mpr ⟨?_, ih⟩
      intro b hb
      have h1 := depth_of_mem_chain hb
      simp only [depth]
      omega

lemma chain_last (e : AnyError) :
    ∃ r, (chain e).getLast? = some r ∧ cause r = none := by
  induction e with
  | fromTcr t => exact ⟨_, rfl, rfl⟩
  | fromParse p => exact ⟨_, rfl, rfl⟩
  | adhoc m => exact ⟨_, rfl, rfl⟩
  | context c e ih =>
      obtain ⟨r, hr, hc⟩ := ih
      refine ⟨r, ?_, hc⟩
      obtain ⟨b, l, hbl⟩ := List.exists_cons_of_ne_nil (chain_ne_nil e)
      rw [hbl] at hr
      simp only [chain, hbl, List.getLast?_cons_cons]
      exact hr

lemma chain_linked (e : AnyError) :
    (chain e).Chain' (fun a b => cause a = some b) := by
  induction e with
  | fromTcr t => simp [chain]
  | fromParse p => simp [chain]
  | adhoc m => simp [chain]
  | context c e ih =>
      simp only [chain]
      refine List.Chain'.cons' ih ?_
      intro y hy
      rw [chain_head] at hy
      simp only [Option.mem_def, Option.some.injEq] at hy
      subst hy
      rfl

/-- C7: cause-chain invariant.  Every container built from the public
operations has a cause chain that is a finite linked sequence: it starts at
the container itself, each node's cause is the next node, it ends in exactly
one terminal root whose cause is `none`, and it is acyclic (no node repeats),
so walking it from outermost to innermost terminates. -/
theorem cause_chain_invariant (e : AnyError) :
    (chain e).head? = some e ∧
      (chain e).Chain' (fun a b => cause a = some b) ∧
      (∃ r, (chain e).getLast? = some r ∧ cause r = none) ∧
      (chain e).Nodup := by
  refine ⟨chain_head e, chain_linked e, chain_last e, ?_⟩
  refine (chain_pairwise e).imp ?_
  intro a b h hab
  rw [hab] at h
  exact Nat.lt_irrefl _ h

/-- C8: render determinism.  `render` is a pure function of the container: its
output is exactly the concatenation, joined by ": ", of the chain of context
messages outermost first followed by the root cause's own message; in
particular the container produced by the demo function `errors_with_context`
renders to `"context of what is going on: the actual error"`. -/
theorem render_deterministic_concatenation :
    (∀ e : AnyError, render e = joinColon (ctxMsgs e ++ [rootMsg e])) ∧
      errors_with_context =
        Except.error
          (AnyError.context "context of what is going on" (AnyError.adhoc "the actual error")) ∧
      render (AnyError.context "context of what is going on" (AnyError.adhoc "the actual error")) =
        "context of what is going on: the actual error" :=
  ⟨render_eq_joinColon, rfl, rfl⟩

/-- C3: context ordering.  For any three distinct non-empty context strings
attached in order `A` (innermost), then `B`, then `C` (outermost) on top of
any root error, `render` yields a string in which `C` occurs before `B`,
`B` before `A`, and `A` before the root message, as a literal substring
ordering on character positions. -/
theorem context_ordering (A B C : String) (root : AnyError)
    (hA : A ≠ "") (hB : B ≠ "") (hC : C ≠ "")
    (hAB : A ≠ B) (hBC : B ≠ C) (hAC : A ≠ C) :
    ∃ p1 p2 p3 p4 : Nat, p1 < p2 ∧ p2 < p3 ∧ p3 < p4 ∧
      occursAt C (render (withContext C (withContext B (withContext A root)))) p1 ∧
      occursAt B (render (withContext C (withContext B (withContext A root)))) p2 ∧
      occursAt A (render (withContext C (withContext B (withContext A root)))) p3 ∧
      occursAt (rootMsg root) (render (withContext C (withContext B (withContext A root)))) p4 := by
  obtain ⟨t, ht⟩ := rootMsg_suffix root
  have hdata : (render (withContext C (withContext B (withContext A root)))).data =
      C.data ++ ((": ").data ++ (B.data ++ ((": ").data ++
        (A.data ++ ((": ").data ++ (render root).data))))) := by
    simp [withContext, render, data_append, List.append_assoc]
  refine ⟨0, (C.data ++ (": ").data).length,
      (C.data ++ ((": ").data ++ (B.data ++ (": ").data))).length,
      (C.data ++ ((": ").data ++ (B.data ++ ((": ").data ++
        (A.data ++ ((": ").data ++ t)))))).length,
      ?_, ?_, ?_, ?_, ?_, ?_, ?_⟩
  · simp only [List.length_append, List.length_cons, List.length_nil, sep_len]
    omega
  · simp only [List.length_append, List.length_cons, List.length_nil, sep_len]
    omega
  · simp only [List.length_append, List.length_cons, List.length_nil, sep_len]
    omega
  · refine ⟨[], (": ").data ++ (B.data ++ ((": ").data ++
      (A.data ++ ((": ").data ++ (render root).data)))), ?_, rfl⟩
    simpa using hdata
  · refine ⟨C.data ++ (": ").data, (": ").data ++
      (A.data ++ ((": ").data ++ (render root).data)), ?_, rfl⟩
    rw [hdata]
    simp [List.append_assoc]
  · refine ⟨C.data ++ ((": ").data ++ (B.data ++ (": ").data)),
      (": ").data ++ (render root).data, ?_, rfl⟩
    rw [hdata]
    simp [List.append_assoc]
  · refine ⟨C.data ++ ((": ").data ++ (B.data ++ ((": ").data ++
      (A.data ++ ((": ").data ++ t))))), [], ?_, rfl⟩
    rw [hdata, ht]
    simp [List.append_assoc]

/-- Witness for C3 at the concrete instance `A := "A"`, `B := "B"`, `C := "C"`,
root `AnyError.adhoc "r"`. -/
theorem context_ordering_witness :
    ∃ p1 p2 p3 p4 : Nat, p1 < p2 ∧ p2 < p3 ∧ p3 < p4 ∧
      occursAt "C" (render (withContext "C" (withContext "B" (withContext "A" (AnyError.adhoc "r"))))) p1 ∧
      occursAt "B" (render (withContext "C" (withContext "B" (withContext "A" (AnyError.adhoc "r"))))) p2 ∧
      occursAt "A" (render (withContext "C" (withContext "B" (withContext "A" (AnyError.adhoc "r"))))) p3 ∧
      occursAt (rootMsg (AnyError.adhoc "r"))
        (render (withContext "C" (withContext "B" (withContext "A" (AnyError.adhoc "r"))))) p4 :=
  context_ordering "A" "B" "C" (AnyError.adhoc "r")
    (by decide) (by decide) (by decide) (by decide) (by decide) (by decide)
